import Mathlib

/-!
Verification of the `watermark.py` tool (skills/watermark/watermark.py).

The program stamps a text watermark on PDF, Word and Excel files. We embed
its orchestration layer shallowly: documents become inductive data, the
filesystem becomes an association list from path strings to contents, and
every fallible OS call (`os.rename`, `os.remove`) returns `Except`.
Python's path helpers (`os.path.splitext`, `os.path.basename`,
`os.path.join`, `str.replace`, `str.lower`, `str.startswith`) are
re-implemented over character lists, following CPython's posixpath
semantics.

Modelling notes, fixed across the whole development:
* the optional third-party libraries (`PyPDF2`/`reportlab`, `python-docx`,
  `openpyxl`) are taken as installed, so the `*_SUPPORT` flags are `True`;
* the module-level `FONT_REGISTERED` value (computed once by
  `register_chinese_font` from which system fonts exist) is threaded as a
  boolean parameter `fr`;
* `os.makedirs(d, exist_ok=True)` is modelled as always succeeding (the
  filesystem model tracks files only).  Its real, uncaught failure path
  at line 183 — for instance `output_dir` already existing as a regular
  file — is therefore outside the model, and no theorem below asserts a
  no-abort guarantee for output-dir mode;
* a `reportlab` canvas block `saveState; translate(a,b); rotate(45);
  drawCentredString(0,0,text); restoreState` is modelled as a single text
  draw anchored at `(a, b)` with a 45 degree rotation, carrying the
  current fill colour and font;
* page dimensions and colour components are modelled as rationals
  (the Python floats `0.25`, `0.75`, division by `2` are exact there, and
  `0.7` / `0.3` stand for the literals in the source).
-/

namespace Watermark

/-! ## Python string and path primitives -/

/-- ASCII lower-casing of one character, as `str.lower` acts on ASCII. -/
def lowerChar (c : Char) : Char :=
  if 65 ≤ c.toNat ∧ c.toNat ≤ 90 then Char.ofNat (c.toNat + 32) else c

/-- Python `s.lower()` (ASCII fragment, which is all the source compares). -/
def strLower (s : String) : String :=
  ⟨s.data.map lowerChar⟩

/-- Python `s.startswith(pre)`. -/
def startsWith (s pre : String) : Bool :=
  pre.data.isPrefixOf s.data

/-- Index of the last occurrence of `c` in the list, `-1` when absent:
Python's `str.rfind` for a single-character needle. -/
def rfindPos (c : Char) : List Char → Int
  | [] => -1
  | a :: rest =>
    let r := rfindPos c rest
    if 0 ≤ r then r + 1 else if a = c then 0 else -1

/-- CPython `posixpath.splitext`: split off the extension at the last dot
of the final path component, unless that component consists only of
leading dots up to that point. -/
def splitext (p : String) : String × String :=
  let l := p.data
  let sepIndex := rfindPos '/' l
  let dotIndex := rfindPos '.' l
  if sepIndex < dotIndex then
    let name := (l.take dotIndex.toNat).drop (sepIndex + 1).toNat
    if name.any (fun c => c ≠ '.') then
      (⟨l.take dotIndex.toNat⟩, ⟨l.drop dotIndex.toNat⟩)
    else (p, "")
  else (p, "")

/-- CPython `posixpath.basename`: everything after the last slash. -/
def basename (p : String) : String :=
  ⟨p.data.drop (rfindPos '/' p.data + 1).toNat⟩

/-- CPython `posixpath.join` for two arguments. -/
def pyJoin (a b : String) : String :=
  if startsWith b "/" then b
  else if a = "" ∨ a.data.getLast? = some '/' then a ++ b
  else a ++ "/" ++ b

/-- Left-to-right non-overlapping replacement of `pat` by `repl`, the
behaviour of Python's `str.replace` for a non-empty pattern (the source
only ever uses the pattern `".tmp"`).  The `fuel` argument makes the
recursion structural; every match consumes at least one character, so
fuel equal to the input length never runs out. -/
def replaceListAux (pat repl : List Char) : Nat → List Char → List Char
  | _, [] => []
  | 0, l => l
  | fuel + 1, c :: rest =>
    if pat ≠ [] ∧ pat.isPrefixOf (c :: rest) then
      repl ++ replaceListAux pat repl fuel (rest.drop (pat.length - 1))
    else
      c :: replaceListAux pat repl fuel rest

/-- Python `s.replace(pat, repl)` (non-empty `pat`). -/
def pyReplace (s pat repl : String) : String :=
  ⟨replaceListAux pat.data repl.data s.data.length s.data⟩

/-- CPython `posixpath.relpath`, modelled for the arguments the directory
walk produces: `p` is either equal to `start` or lies beneath it. -/
def relpath (p start : String) : String :=
  if p = start then "."
  else if (start ++ "/").data.isPrefixOf p.data then
    ⟨p.data.drop (start.data.length + 1)⟩
  else p

/-! ## Document models -/

/-- One watermark text drawing on a PDF overlay: the anchor point, the
rotation about that anchor, the text, font name and size, and the RGBA
fill colour. -/
structure DrawOp where
  x : ℚ
  y : ℚ
  rotationDeg : ℚ
  text : String
  fontName : String
  fontSize : ℚ
  fill : ℚ × ℚ × ℚ × ℚ
deriving DecidableEq

/-- Content stream item of a PDF page: either pre-existing (opaque)
content of the input document, or a watermark text draw merged on top. -/
inductive PageItem where
  | original (id : Nat)
  | draw (op : DrawOp)
deriving DecidableEq

/-- A PDF page: media box dimensions plus its content stream. -/
structure PdfPage where
  width : ℚ
  height : ℚ
  content : List PageItem
deriving DecidableEq

/-- A text run of a Word paragraph, with the font properties the source
sets (`run.font.size`, `run.font.color.rgb`). -/
structure Run where
  text : String
  sizePt : Option Nat
  colorRGB : Option (Nat × Nat × Nat)
deriving DecidableEq

/-- A Word paragraph: its runs and its alignment. -/
structure Paragraph where
  runs : List Run
  alignment : Option Nat
deriving DecidableEq

/-- A Word section, reduced to what the source touches: the paragraphs of
its header. -/
structure DocxSection where
  headerParagraphs : List Paragraph
deriving DecidableEq

/-- A Word document: its sections (every real `.docx` has at least one)
and its body content, which the watermarking never touches. -/
structure DocxDoc where
  sections : List DocxSection
  body : List Paragraph
deriving DecidableEq

/-- One side of an Excel header (`openpyxl` `_HeaderFooterPart`): text,
font size and colour. -/
structure HeaderFooterItem where
  text : Option String
  size : Option Nat
  color : Option String
deriving DecidableEq

/-- An Excel page header with its left, center and right parts. -/
structure HeaderFooter where
  left : HeaderFooterItem
  center : HeaderFooterItem
  right : HeaderFooterItem
deriving DecidableEq

/-- An Excel worksheet: odd- and even-page headers plus cell content,
which the watermarking never touches. -/
structure Worksheet where
  oddHeader : HeaderFooter
  evenHeader : HeaderFooter
  cells : List (String × String)
deriving DecidableEq

/-- An Excel workbook. -/
structure Workbook where
  worksheets : List Worksheet
deriving DecidableEq

/-- The content of a file on disk: one of the three supported document
kinds, or arbitrary other bytes (on which every handler's library raises,
caught and turned into `False`). -/
inductive Content where
  | pdf (pages : List PdfPage)
  | docx (d : DocxDoc)
  | xlsx (wb : Workbook)
  | raw (bytes : String)
deriving DecidableEq

/-- The three supported document formats. -/
inductive Format where
  | pdf
  | docx
  | xlsx
deriving DecidableEq

/-! ## Filesystem model -/

/-- An OS-level error raised by `os.rename` / `os.remove`. -/
inductive OsError where
  | fileNotFound (path : String)
deriving DecidableEq

/-- The filesystem: a finite map from path to content, as an association
list (later writes shadow nothing: writing removes the old entry). -/
def FS : Type := List (String × Content)

instance : DecidableEq FS := by
  unfold FS
  infer_instance

/-- Read the content at a path. -/
def FS.read : FS → String → Option Content
  | [], _ => none
  | (q, c) :: rest, p => if q = p then some c else FS.read rest p

/-- Drop every entry at a path. -/
def FS.remove : FS → String → FS
  | [], _ => []
  | (q, c) :: rest, p =>
    if q = p then FS.remove rest p else (q, c) :: FS.remove rest p

/-- Write content at a path, replacing whatever was there. -/
def FS.write (fs : FS) (p : String) (c : Content) : FS :=
  (p, c) :: fs.remove p

/-- POSIX `os.rename`: fails when the source is missing, silently
replaces the destination otherwise. -/
def FS.rename (fs : FS) (src dst : String) : Except OsError FS :=
  match fs.read src with
  | none => .error (.fileNotFound src)
  | some c => .ok ((fs.remove src).write dst c)

/-- Python `os.remove`: fails when the path is missing. -/
def FS.removeFile (fs : FS) (p : String) : Except OsError FS :=
  match fs.read p with
  | none => .error (.fileNotFound p)
  | some _ => .ok (fs.remove p)

/-! ## Format handlers (watermark.py lines 64-175) -/

/-- Shorthand for one watermark text draw of `create_watermark_pdf`: the
canvas block `saveState; translate(x, y); rotate(45);
drawCentredString(0, 0, text); restoreState`, drawn with the current fill
`setFillColorRGB(0.7, 0.7, 0.7, alpha=0.3)` and the current font at
size 30 (`ChineseFont` when a CJK font was registered, else
`Helvetica`). -/
def wmDraw (fr : Bool) (text : String) (x y : ℚ) : PageItem :=
  .draw { x := x, y := y, rotationDeg := 45, text := text,
          fontName := if fr then "ChineseFont" else "Helvetica",
          fontSize := 30,
          fill := (7/10, 7/10, 7/10, 3/10) }

/-- `create_watermark_pdf(text, page_width, page_height)` (lines 64-99):
a single-page overlay of the page's exact size with three rotated copies
of the text — centre, upper-left quarter, lower-right quarter. -/
def create_watermark_pdf (fr : Bool) (text : String)
    (page_width page_height : ℚ) : PdfPage :=
  { width := page_width, height := page_height,
    content :=
      [ wmDraw fr text (page_width / 2) (page_height / 2),
        wmDraw fr text (page_width * (25 / 100)) (page_height * (75 / 100)),
        wmDraw fr text (page_width * (75 / 100)) (page_height * (25 / 100)) ] }

/-- `page.merge_page(watermark.pages[0])` (line 117): the overlay's
content is composited on top of the original page content. -/
def mergePage (fr : Bool) (text : String) (page : PdfPage) : PdfPage :=
  { page with
    content := page.content ++
      (create_watermark_pdf fr text page.width page.height).content }

/-- `add_watermark_pdf(input_path, output_path, text)` (lines 102-125):
read the input, merge a per-page overlay onto every page, write the
result to the output path.  Any library exception (file missing, content
not a PDF) is caught and turned into `False`. -/
def add_watermark_pdf (fr : Bool) (input_path output_path text : String)
    (fs : FS) : Bool × FS :=
  match fs.read input_path with
  | some (.pdf pages) =>
      (true, fs.write output_path (.pdf (pages.map (mergePage fr text))))
  | _ => (false, fs)

/-- The run appended by the Word handler: watermark text at 36 pt in
light gray RGB(200, 200, 200). -/
def wmRun (text : String) : Run :=
  { text := text, sizePt := some 36, colorRGB := some (200, 200, 200) }

/-- Per-section work of `add_watermark_docx` (lines 138-144): take the
header's first paragraph (creating one when the header has none), append
the watermark run, set the paragraph's alignment to centred (`1`). -/
def docxSectionAdd (text : String) (s : DocxSection) : DocxSection :=
  match s.headerParagraphs with
  | [] =>
      { headerParagraphs := [{ runs := [wmRun text], alignment := some 1 }] }
  | p :: rest =>
      { headerParagraphs :=
          { runs := p.runs ++ [wmRun text], alignment := some 1 } :: rest }

/-- The pure document transformation of the Word handler: every section's
header gains the watermark run; the body is carried over unchanged. -/
def docxAddWatermark (text : String) (d : DocxDoc) : DocxDoc :=
  { sections := d.sections.map (docxSectionAdd text), body := d.body }

/-- `add_watermark_docx(input_path, output_path, text)` (lines 128-150). -/
def add_watermark_docx (input_path output_path text : String)
    (fs : FS) : Bool × FS :=
  match fs.read input_path with
  | some (.docx d) =>
      (true, fs.write output_path (.docx (docxAddWatermark text d)))
  | _ => (false, fs)

/-- Lines 164-169: set a header part's text, size 24 and colour
`"C0C0C0"`. -/
def setCenter (hf : HeaderFooter) (text : String) : HeaderFooter :=
  { hf with center := { text := some text, size := some 24, color := some "C0C0C0" } }

/-- The pure workbook transformation of the Excel handler: every
worksheet's odd and even page headers get the watermark in the centre. -/
def xlsxAddWatermark (text : String) (wb : Workbook) : Workbook :=
  { worksheets := wb.worksheets.map (fun s =>
      { s with oddHeader := setCenter s.oddHeader text,
               evenHeader := setCenter s.evenHeader text }) }

/-- `add_watermark_xlsx(input_path, output_path, text)` (lines 153-175). -/
def add_watermark_xlsx (input_path output_path text : String)
    (fs : FS) : Bool × FS :=
  match fs.read input_path with
  | some (.xlsx wb) =>
      (true, fs.write output_path (.xlsx (xlsxAddWatermark text wb)))
  | _ => (false, fs)

/-! ## File processor (watermark.py lines 178-214) -/

/-- The extension dispatch chain of `process_file` (lines 197-204):
`ext == '.pdf' / '.docx' / '.xlsx'`, where `ext` is
`os.path.splitext(file_path)[1].lower()` of the ORIGINAL argument,
computed at line 180 before any renaming. -/
def extFormat (path : String) : Option Format :=
  let ext := strLower (splitext path).2
  if ext = ".pdf" then some .pdf
  else if ext = ".docx" then some .docx
  else if ext = ".xlsx" then some .xlsx
  else none

/-- Dispatch to the matching handler. -/
def runHandler (fr : Bool) (fmt : Format)
    (input_path output_path text : String) (fs : FS) : Bool × FS :=
  match fmt with
  | .pdf => add_watermark_pdf fr input_path output_path text fs
  | .docx => add_watermark_docx input_path output_path text fs
  | .xlsx => add_watermark_xlsx input_path output_path text fs

/-- `process_file(file_path, text, output_dir=None, overwrite=False)`
(lines 178-214).  Mirrors the source statement by statement:

* line 180: the extension is taken from the original `file_path`;
* lines 182-184: with an output directory, the output path is
  `output_dir/<basename(file_path)>` (`os.makedirs` modelled as
  succeeding);
* lines 185-190: else with `overwrite`, the output path is the original
  path and the original is renamed to `file_path + ".tmp"`, which becomes
  the handler's input;
* lines 191-193: else the output path is
  `<base>_watermarked<extension>`;
* lines 197-205: dispatch on the extension; an unsupported extension
  prints a message and returns `False` at once — before the cleanup
  below;
* lines 207-212: only when `overwrite` and no `output_dir`: on success
  delete the `.tmp` backup, on failure rename it to
  `output_path.replace(".tmp", "")`. -/
def process_file (fr : Bool) (file_path text : String)
    (output_dir : Option String) (overwrite : Bool) (fs : FS) :
    Except OsError (Bool × FS) :=
  let prepared : Except OsError (String × String × FS) :=
    match output_dir with
    | some d => .ok (file_path, pyJoin d (basename file_path), fs)
    | none =>
      if overwrite then
        match fs.rename file_path (file_path ++ ".tmp") with
        | .error e => .error e
        | .ok fs₁ => .ok (file_path ++ ".tmp", file_path, fs₁)
      else
        .ok (file_path,
             (splitext file_path).1 ++ "_watermarked" ++ (splitext file_path).2,
             fs)
  match prepared with
  | .error e => .error e
  | .ok (input_path, output_path, fs₁) =>
    match extFormat file_path with
    | none => .ok (false, fs₁)
    | some fmt =>
      let r := runHandler fr fmt input_path output_path text fs₁
      if overwrite && output_dir.isNone then
        if r.1 then
          match r.2.removeFile input_path with
          | .error e => .error e
          | .ok fs₃ => .ok (r.1, fs₃)
        else
          match r.2.rename input_path (pyReplace output_path ".tmp" "") with
          | .error e => .error e
          | .ok fs₃ => .ok (r.1, fs₃)
      else .ok (r.1, r.2)

/-! ## Directory walker (watermark.py lines 217-251) -/

/-- A snapshot of a directory tree as `os.walk` enumerates it: the file
names in this directory and the named subdirectories.  The snapshot is
kept separate from the `FS` that processing operates on, so that a file
deleted or altered between traversal and processing is expressible. -/
inductive DirTree where
  | mk (files : List String) (subdirs : List (String × DirTree))

/-- File names sitting directly in the directory. -/
def DirTree.files : DirTree → List String
  | .mk fs _ => fs

/-- Named subdirectories. -/
def DirTree.subdirs : DirTree → List (String × DirTree)
  | .mk _ sd => sd

mutual

/-- The `(root, filename)` pairs `os.walk` yields under `root`, in
top-down order, with the source's in-place pruning of hidden directories
(line 224: `dirs[:] = [d for d in dirs if not d.startswith('.')]`)
built in: a subdirectory whose name starts with `.` contributes
nothing. -/
def walkAll (root : String) : DirTree → List (String × String)
  | .mk files subdirs =>
      files.map (fun f => (root, f)) ++ walkSubdirs root subdirs

/-- Walk a list of subdirectories, skipping the hidden ones. -/
def walkSubdirs (root : String) : List (String × DirTree) → List (String × String)
  | [] => []
  | (name, t) :: rest =>
      (if startsWith name "." then []
       else walkAll (pyJoin root name) t) ++ walkSubdirs root rest

end

/-- The file filter of the walk loop (lines 227-232): skip lock files
(`~$`), hidden files (`.`), and extensions outside
`{'.pdf', '.docx', '.xlsx'}`. -/
def skipEntry (f : String) : Bool :=
  startsWith f "~$" || startsWith f "." ||
    !(let ext := strLower (splitext f).2
      ext = ".pdf" || ext = ".docx" || ext = ".xlsx")

/-- The full paths the walk loop hands to `process_file`, in order. -/
def processedNames : List (String × String) → List String
  | [] => []
  | (root, f) :: rest =>
      if skipEntry f then processedNames rest
      else pyJoin root f :: processedNames rest

/-- The loop body of `process_directory` (lines 226-249), folded over the
walk's entries: filter each file name, compute the per-file output
directory (mirroring the relative path when `output_dir` is set), call
`process_file`, and count its boolean result.  An exception from
`process_file` is uncaught and aborts the fold. -/
def processEntries (fr : Bool) (text : String) (output_dir : Option String)
    (overwrite : Bool) (dir_path : String) :
    List (String × String) → FS → Nat × Nat → Except OsError ((Nat × Nat) × FS)
  | [], fs, acc => .ok (acc, fs)
  | (root, f) :: rest, fs, acc =>
    if skipEntry f then
      processEntries fr text output_dir overwrite dir_path rest fs acc
    else
      match process_file fr (pyJoin root f) text
          (output_dir.map (fun od => pyJoin od (relpath root dir_path))) overwrite fs with
      | .error e => .error e
      | .ok (true, fs') =>
          processEntries fr text output_dir overwrite dir_path rest fs' (acc.1 + 1, acc.2)
      | .ok (false, fs') =>
          processEntries fr text output_dir overwrite dir_path rest fs' (acc.1, acc.2 + 1)

/-- `process_directory(dir_path, text, output_dir=None, overwrite=False)`
(lines 217-251): walk the snapshot tree rooted at `dir_path` and fold the
per-file processing over it, returning the
`{'success': _, 'failed': _}` tally and the final filesystem. -/
def process_directory (fr : Bool) (dir_path text : String)
    (output_dir : Option String) (overwrite : Bool) (t : DirTree) (fs : FS) :
    Except OsError ((Nat × Nat) × FS) :=
  processEntries fr text output_dir overwrite dir_path (walkAll dir_path t) fs (0, 0)

/-! ## CLI entry point (watermark.py lines 254-295) -/

/-- The parsed command line (`argparse` is out of scope; `text` is
required by it, `overwrite` defaults to `False`). -/
structure Args where
  path : Option String
  text : String
  directory : Option String
  output : Option String
  overwrite : Bool

/-- The world `main` runs against: the files on disk plus the directory
snapshots `os.walk` would enumerate. -/
structure World where
  fs : FS
  dirs : List (String × DirTree)

/-- Look up the snapshot tree of a directory path. -/
def lookupDir : List (String × DirTree) → String → Option DirTree
  | [], _ => none
  | (q, t) :: rest, p => if q = p then some t else lookupDir rest p

/-- `os.path.exists`: the path denotes a file or a directory. -/
def pathExists (w : World) (p : String) : Bool :=
  (w.fs.read p).isSome || (lookupDir w.dirs p).isSome

/-- Target resolution (lines 275-281): `--directory` wins, else the
positional path, else there is no target. -/
def resolveTarget (args : Args) : Option String :=
  match args.directory with
  | some d => some d
  | none => args.path

/-- `main()` (lines 254-295), as the exit status it establishes:
no target → help plus `sys.exit(1)`; missing target path →
`sys.exit(1)`; a file target exits `1` exactly when `process_file`
returns `False`; a directory target prints the tally and falls off the
end of `main` — exit `0` whatever the tally.  An uncaught `OsError`
surfaces as `.error`.  (A target that exists but has no snapshot makes
`os.walk` yield nothing: exit `0`.) -/
def main (fr : Bool) (args : Args) (w : World) : Except OsError Nat :=
  match resolveTarget args with
  | none => .ok 1
  | some target =>
    if !pathExists w target then .ok 1
    else if (w.fs.read target).isSome then
      match process_file fr target args.text args.output args.overwrite w.fs with
      | .error e => .error e
      | .ok (true, _) => .ok 0
      | .ok (false, _) => .ok 1
    else
      match lookupDir w.dirs target with
      | some t =>
        match process_directory fr target args.text args.output args.overwrite t w.fs with
        | .error e => .error e
        | .ok _ => .ok 0
      | none => .ok 0

/-! ## Derived views used by the theorems -/

/-- The format a content value actually is. -/
def contentFormat : Content → Option Format
  | .pdf _ => some .pdf
  | .docx _ => some .docx
  | .xlsx _ => some .xlsx
  | .raw _ => none

/-- The pure content transformation each handler applies on success. -/
def watermarkContent (fr : Bool) (text : String) : Content → Content
  | .pdf pages => .pdf (pages.map (mergePage fr text))
  | .docx d => .docx (docxAddWatermark text d)
  | .xlsx wb => .xlsx (xlsxAddWatermark text wb)
  | .raw b => .raw b

/-! ## Spec-side definitions

These two definitions are written from the specification's words, not
from the source, to be compared with the source-side definitions. -/

/-- Overlay page as section 4.2 of the spec describes it: "a new
single-page overlay at that page's exact width/height containing the
watermark text drawn three times — centered, at 25%-width/75%-height,
and at 75%-width/25%-height — each rotated 45° about its anchor point,
in a low-opacity gray fill (RGB 0.7,0.7,0.7 at ~30% opacity), font
size 30". -/
def specOverlay (fontName text : String) (w h : ℚ) : PdfPage :=
  let at_ : ℚ → ℚ → PageItem := fun x y =>
    .draw { x := x, y := y, rotationDeg := 45, text := text,
            fontName := fontName, fontSize := 30,
            fill := (7/10, 7/10, 7/10, 3/10) }
  { width := w, height := h,
    content := [at_ (w / 2) (h / 2), at_ (w / 4) (3 * h / 4), at_ (3 * w / 4) (h / 4)] }

/-- Word watermarking as section 4.3 of the spec describes it: "for
every section in the document, obtain (or create, if absent) the first
header paragraph, append a text run containing the watermark text,
styled at 36-point font with a light-gray color (RGB 200,200,200),
center-aligned. This mutates only headers — body content is
untouched." -/
def specDocxAdd (text : String) (d : DocxDoc) : DocxDoc :=
  let firstOrNew : List Paragraph → Paragraph × List Paragraph := fun ps =>
    match ps with
    | [] => ({ runs := [], alignment := none }, [])
    | p :: rest => (p, rest)
  let specRun : Run := { text := text, sizePt := some 36, colorRGB := some (200, 200, 200) }
  { sections := d.sections.map (fun s =>
      let (p, rest) := firstOrNew s.headerParagraphs
      { headerParagraphs := { runs := p.runs ++ [specRun], alignment := some 1 } :: rest }),
    body := d.body }

/-! ## Concrete fixtures for the witnesses -/

/-- A one-page US-letter PDF with some original content. -/
def page612 : PdfPage :=
  { width := 612, height := 792, content := [.original 0] }

/-- A Word document with one section, an existing header paragraph and a
body paragraph. -/
def doc1 : DocxDoc :=
  { sections := [{ headerParagraphs := [{ runs := [], alignment := none }] }],
    body := [{ runs := [{ text := "body", sizePt := none, colorRGB := none }],
               alignment := none }] }

/-- An empty Excel header part. -/
def emptyHFItem : HeaderFooterItem := { text := none, size := none, color := none }

/-- A workbook with one plain worksheet. -/
def wb1 : Workbook :=
  { worksheets := [{ oddHeader := { left := emptyHFItem, center := emptyHFItem, right := emptyHFItem },
                     evenHeader := { left := emptyHFItem, center := emptyHFItem, right := emptyHFItem },
                     cells := [("A1", "v")] }] }

/-- The directory snapshot of the spec's concrete walk test:
`root/a.pdf`, `root/b.docx`, `root/c.txt`, `root/.hidden.xlsx`. -/
def tree0 : DirTree :=
  .mk ["a.pdf", "b.docx", "c.txt", ".hidden.xlsx"] []

/-- The matching filesystem, with both documents valid. -/
def fs0 : FS :=
  [("root/a.pdf", .pdf [page612]),
   ("root/b.docx", .docx doc1),
   ("root/c.txt", .raw "notes"),
   ("root/.hidden.xlsx", .xlsx wb1)]

/-- A filesystem holding one valid PDF, for single-file witnesses. -/
def fs4 : FS := [("d/x.pdf", .pdf [page612])]

/-- A filesystem holding one valid PDF under the name the PDF-handler
witness reads. -/
def fs8 : FS := [("in.pdf", .pdf [page612])]

/-- Directory snapshot for the exit-code witness: one file that will
fail. -/
def tree6 : DirTree := .mk ["bad.pdf"] []

/-- World for the exit-code witness: `root/bad.pdf` exists but is not a
valid PDF, so its handler fails. -/
def w6 : World :=
  { fs := [("root/bad.pdf", .raw "garbage")], dirs := [("root", tree6)] }

/-- Arguments for the exit-code witness: directory mode on `root`. -/
def args6 : Args :=
  { path := none, text := "W", directory := some "root", output := none,
    overwrite := false }

/-- Number of runs in the first header paragraph of a section (`0` when
the header has no paragraph): the measure that separates once- from
twice-watermarked documents. -/
def firstHeaderRuns (s : DocxSection) : Nat :=
  match s.headerParagraphs with
  | [] => 0
  | p :: _ => p.runs.length

/-! ## Helper lemmas about the filesystem model -/

theorem FS.read_write_self (fs : FS) (p : String) (c : Content) :
    (fs.write p c).read p = some c := by
  simp [FS.write, FS.read]

theorem FS.read_remove_ne (fs : FS) {p q : String} (h : p ≠ q) :
    (fs.remove p).read q = fs.read q := by
  induction fs with
  | nil => rfl
  | cons e rest ih =>
    obtain ⟨a, c⟩ := e
    by_cases ha : a = p
    · subst ha
      simp [FS.remove, FS.read, h, ih]
    · by_cases hq : a = q <;> simp [FS.remove, FS.read, ha, hq, ih, Ne.symm h]

theorem FS.read_remove_self (fs : FS) (p : String) :
    (fs.remove p).read p = none := by
  induction fs with
  | nil => rfl
  | cons e rest ih =>
    obtain ⟨a, c⟩ := e
    by_cases ha : a = p <;> simp [FS.remove, FS.read, ha, ih]

theorem FS.read_write_ne (fs : FS) {p q : String} (c : Content) (h : p ≠ q) :
    (fs.write p c).read q = fs.read q := by
  simp [FS.write, FS.read, h, FS.read_remove_ne fs h]

theorem ne_append_tmp (p : String) : p ≠ p ++ ".tmp" := by
  intro h
  have hl := congrArg String.length h
  have h4 : (".tmp" : String).length = 4 := rfl
  rw [String.length_append, h4] at hl
  omega

/-! ## Helper lemmas about the handlers and the file processor -/

theorem runHandler_ok (fr : Bool) (fmt : Format) (input output text : String)
    (fs : FS) (c : Content) (hread : fs.read input = some c)
    (hfmt : contentFormat c = some fmt) :
    runHandler fr fmt input output text fs =
      (true, fs.write output (watermarkContent fr text c)) := by
  cases c <;> simp [contentFormat] at hfmt <;> subst hfmt <;>
    simp [runHandler, add_watermark_pdf, add_watermark_docx, add_watermark_xlsx,
      watermarkContent, hread]

theorem process_file_outdir (fr : Bool) (path text d : String) (ow : Bool)
    (fs : FS) (c : Content) (fmt : Format)
    (hext : extFormat path = some fmt) (hc : contentFormat c = some fmt)
    (hread : fs.read path = some c) :
    process_file fr path text (some d) ow fs =
      .ok (true, fs.write (pyJoin d (basename path)) (watermarkContent fr text c)) := by
  simp [process_file, hext,
    runHandler_ok fr fmt path (pyJoin d (basename path)) text fs c hread hc]

theorem process_file_overwrite (fr : Bool) (path text : String)
    (fs : FS) (c : Content) (fmt : Format)
    (hext : extFormat path = some fmt) (hc : contentFormat c = some fmt)
    (hread : fs.read path = some c) :
    process_file fr path text none true fs =
      .ok (true,
        ((((fs.remove path).write (path ++ ".tmp") c).write path
            (watermarkContent fr text c)).remove (path ++ ".tmp"))) := by
  have h1 : FS.rename fs path (path ++ ".tmp") =
      .ok ((fs.remove path).write (path ++ ".tmp") c) := by
    simp [FS.rename, hread]
  have h2 := runHandler_ok fr fmt (path ++ ".tmp") path text
    ((fs.remove path).write (path ++ ".tmp") c) c (FS.read_write_self _ _ _) hc
  have h3 : (((fs.remove path).write (path ++ ".tmp") c).write path
      (watermarkContent fr text c)).read (path ++ ".tmp") = some c := by
    rw [FS.read_write_ne _ _ (ne_append_tmp path), FS.read_write_self]
  simp [process_file, h1, hext, h2, FS.removeFile, h3]

theorem process_file_sibling (fr : Bool) (path text : String)
    (fs : FS) (c : Content) (fmt : Format)
    (hext : extFormat path = some fmt) (hc : contentFormat c = some fmt)
    (hread : fs.read path = some c) :
    process_file fr path text none false fs =
      .ok (true, fs.write ((splitext path).1 ++ "_watermarked" ++ (splitext path).2)
            (watermarkContent fr text c)) := by
  simp [process_file, hext,
    runHandler_ok fr fmt path ((splitext path).1 ++ "_watermarked" ++ (splitext path).2)
      text fs c hread hc]

theorem process_file_ok_of_not_overwrite (fr : Bool) (path text : String)
    (od : Option String) (fs : FS) :
    ∃ b fs', process_file fr path text od false fs = .ok (b, fs') := by
  cases od with
  | none =>
    cases hf : extFormat path with
    | none => exact ⟨false, fs, by simp [process_file, hf]⟩
    | some fmt =>
      refine ⟨(runHandler fr fmt path
          ((splitext path).1 ++ "_watermarked" ++ (splitext path).2) text fs).1,
        (runHandler fr fmt path
          ((splitext path).1 ++ "_watermarked" ++ (splitext path).2) text fs).2, ?_⟩
      simp [process_file, hf]
  | some d =>
    cases hf : extFormat path with
    | none => exact ⟨false, fs, by simp [process_file, hf]⟩
    | some fmt =>
      refine ⟨(runHandler fr fmt path (pyJoin d (basename path)) text fs).1,
        (runHandler fr fmt path (pyJoin d (basename path)) text fs).2, ?_⟩
      simp [process_file, hf]

/-! ## Helper lemmas about the directory walk -/

theorem walkSubdirs_filter (root : String) (l : List (String × DirTree)) :
    walkSubdirs root (l.filter (fun d => !startsWith d.1 ".")) = walkSubdirs root l := by
  induction l with
  | nil => rfl
  | cons e rest ih =>
    obtain ⟨name, t⟩ := e
    by_cases hn : startsWith name "." <;> simp [walkSubdirs, hn, ih]

theorem processEntries_count (fr : Bool) (text : String) (od : Option String)
    (ow : Bool) (dp : String) :
    ∀ (entries : List (String × String)) (fs : FS) (acc res : Nat × Nat) (fs' : FS),
      processEntries fr text od ow dp entries fs acc = .ok (res, fs') →
      res.1 + res.2 = acc.1 + acc.2 + (processedNames entries).length := by
  intro entries
  induction entries with
  | nil =>
    intro fs acc res fs' h
    simp [processEntries] at h
    obtain ⟨h1, h2⟩ := h
    subst h1
    simp [processedNames]
  | cons e rest ih =>
    obtain ⟨root, f⟩ := e
    intro fs acc res fs' h
    by_cases hs : skipEntry f
    · rw [processEntries, if_pos hs] at h
      have := ih fs acc res fs' h
      simpa [processedNames, hs] using this
    · rw [processEntries, if_neg hs] at h
      cases hpf : process_file fr (pyJoin root f) text
          (od.map fun od => pyJoin od (relpath root dp)) ow fs with
      | error e => simp only [hpf] at h; simp at h
      | ok r =>
        obtain ⟨b, fs₁⟩ := r
        simp only [hpf] at h
        cases b
        · have := ih fs₁ (acc.1, acc.2 + 1) res fs' h
          simp [processedNames, hs] at this ⊢
          omega
        · have := ih fs₁ (acc.1 + 1, acc.2) res fs' h
          simp [processedNames, hs] at this ⊢
          omega

theorem processEntries_ok (fr : Bool) (text : String) (od : Option String)
    (dp : String) :
    ∀ (entries : List (String × String)) (fs : FS) (acc : Nat × Nat),
      ∃ res fs', processEntries fr text od false dp entries fs acc = .ok (res, fs') := by
  intro entries
  induction entries with
  | nil => intro fs acc; exact ⟨acc, fs, rfl⟩
  | cons e rest ih =>
    obtain ⟨root, f⟩ := e
    intro fs acc
    by_cases hs : skipEntry f
    · obtain ⟨res, fs', h⟩ := ih fs acc
      exact ⟨res, fs', by rw [processEntries, if_pos hs]; exact h⟩
    · obtain ⟨b, fs₁, hpf⟩ := process_file_ok_of_not_overwrite fr (pyJoin root f) text
        (od.map fun od => pyJoin od (relpath root dp)) fs
      cases b
      · obtain ⟨res, fs', h⟩ := ih fs₁ (acc.1, acc.2 + 1)
        exact ⟨res, fs', by rw [processEntries, if_neg hs]; simp only [hpf]; exact h⟩
      · obtain ⟨res, fs', h⟩ := ih fs₁ (acc.1 + 1, acc.2)
        exact ⟨res, fs', by rw [processEntries, if_neg hs]; simp only [hpf]; exact h⟩

/-! ## Helper lemmas about the Word and PDF transformations -/

theorem firstHeaderRuns_docxSectionAdd (text : String) (s : DocxSection) :
    firstHeaderRuns (docxSectionAdd text s) = firstHeaderRuns s + 1 := by
  obtain ⟨ps⟩ := s
  cases ps <;> simp [docxSectionAdd, firstHeaderRuns]

theorem create_watermark_pdf_eq_spec (fr : Bool) (text : String) (w h : ℚ) :
    create_watermark_pdf fr text w h =
      specOverlay (if fr then "ChineseFont" else "Helvetica") text w h := by
  simp only [create_watermark_pdf, specOverlay, wmDraw, PdfPage.mk.injEq,
    List.cons.injEq, PageItem.draw.injEq, DrawOp.mk.injEq]
  norm_num
  exact ⟨⟨by ring, by ring⟩, by ring, by ring⟩

theorem mergePage_eq_spec (fr : Bool) (text : String) (p : PdfPage) :
    mergePage fr text p =
      { p with content := p.content ++
          (specOverlay (if fr then "ChineseFont" else "Helvetica")
            text p.width p.height).content } := by
  rw [mergePage, create_watermark_pdf_eq_spec]

/-! ## Claim theorems -/

/-- C1: the claim says that after every `process_file` call with
`overwrite` enabled and no `output_dir`, whatever the outcome and the
file's extension, no `<path>.tmp` file remains on disk.  The code
violates it: for an unrecognized extension the `return False` of
line 205 runs before the cleanup of lines 207-212, so the backup created
by the rename of line 189 stays on disk under the `.tmp` name and the
original name is gone.  This theorem evaluates the model at the failing
input `process_file("doc.txt", "W", output_dir=None, overwrite=True)`
with `doc.txt` present: the call returns `False` with the filesystem
holding exactly `doc.txt.tmp`. -/
theorem C1_tmp_left_behind :
    process_file false "doc.txt" "W" none true [("doc.txt", .raw "data")] =
      .ok (false, [("doc.txt.tmp", .raw "data")]) ∧
    FS.read [("doc.txt.tmp", Content.raw "data")] "doc.txt.tmp" =
      some (.raw "data") ∧
    FS.read [("doc.txt.tmp", Content.raw "data")] "doc.txt" = none := by
  exact ⟨rfl, rfl, rfl⟩

/-- C2: the claim says that in overwrite mode a failing handler makes
the `.tmp` backup go back to exactly the original path, for every
original path including ones containing the substring `".tmp"`.  The
code violates it: line 212 renames the backup to
`output_path.replace(".tmp", "")`, which strips every `".tmp"` substring
from the original path.  At the failing input
`process_file("report.tmp.pdf", "W", overwrite=True)` with
`report.tmp.pdf` holding non-PDF bytes (so the handler fails), the
backup is restored to `report.pdf` and nothing is left at the original
name `report.tmp.pdf`. -/
theorem C2_restore_misnamed :
    process_file false "report.tmp.pdf" "W" none true
        [("report.tmp.pdf", .raw "junk")] =
      .ok (false, [("report.pdf", .raw "junk")]) ∧
    FS.read [("report.pdf", Content.raw "junk")] "report.tmp.pdf" = none := by
  exact ⟨rfl, rfl⟩

/-- C3, counterexample: the claim says `process_directory` never raises
and always returns the aggregate tally, reducing even OS errors during
the backup rename to a counted failure.  But `os.rename` at line 189
runs outside any try/except: when the walk snapshot lists `root/a.pdf`
and the file is gone by processing time (overwrite mode), the rename
raises and the walk aborts with an exception instead of a tally. -/
theorem C3_counterexample :
    process_directory false "root" "W" none true (.mk ["a.pdf"] []) [] =
      .error (.fileNotFound "root/a.pdf") := rfl

/-- C3, amended: per-file handler failures are indeed reduced to a
boolean and counted, and in sibling-output mode — no output directory
and overwrite disabled, the one mode in which `process_file` performs no
fallible OS call of its own — `process_directory` never raises and
always returns the aggregate tally, with `successCount + failedCount`
equal to the number of files handed to the processor.  The containment
claim fails for the other modes, where `process_file` does issue its own
uncaught OS calls: the backup rename of line 189 (overwrite mode — the
counterexample above) and `os.makedirs` of line 183 (output-dir mode,
e.g. when the output directory already exists as a regular file; that
failure path lies outside this model, see the module note) can raise and
abort the walk instead of being counted as one failure. -/
theorem C3_amended_no_abort (fr : Bool) (dp text : String)
    (t : DirTree) (fs : FS) :
    ∃ res fs', process_directory fr dp text none false t fs = .ok (res, fs') ∧
      res.1 + res.2 = (processedNames (walkAll dp t)).length := by
  obtain ⟨res, fs', h⟩ := processEntries_ok fr text none dp (walkAll dp t) fs (0, 0)
  refine ⟨res, fs', h, ?_⟩
  have hc := processEntries_count fr text none false dp (walkAll dp t) fs (0, 0) res fs' h
  simpa using hc

/-- C4: output-path resolution of `process_file`, in priority order, for
a file whose extension matches its content.  (1) With `output_dir`
given, the result is written to `output_dir/<basename(path)>` and
`overwrite` is ignored (the filesystem change is the same for both
values of `ow`, with no `.tmp` rename).  (2) Else with `overwrite`, the
output path is the original path — afterwards the original path holds
the watermarked content and no `<path>.tmp` remains — and the handler's
input was the `.tmp` backup.  (3) Else the output is the sibling
`<base>_watermarked<ext>`. -/
theorem C4_output_resolution (fr : Bool) (path text : String) (fs : FS)
    (c : Content) (fmt : Format)
    (hext : extFormat path = some fmt) (hc : contentFormat c = some fmt)
    (hread : fs.read path = some c) :
    (∀ d ow, process_file fr path text (some d) ow fs =
        .ok (true, fs.write (pyJoin d (basename path)) (watermarkContent fr text c))) ∧
    (∃ fs', process_file fr path text none true fs = .ok (true, fs') ∧
        fs'.read path = some (watermarkContent fr text c) ∧
        fs'.read (path ++ ".tmp") = none) ∧
    process_file fr path text none false fs =
      .ok (true, fs.write ((splitext path).1 ++ "_watermarked" ++ (splitext path).2)
            (watermarkContent fr text c)) := by
  refine ⟨fun d ow => process_file_outdir fr path text d ow fs c fmt hext hc hread,
    ⟨_, process_file_overwrite fr path text fs c fmt hext hc hread, ?_, ?_⟩,
    process_file_sibling fr path text fs c fmt hext hc hread⟩
  · rw [FS.read_remove_ne _ (Ne.symm (ne_append_tmp path)), FS.read_write_self]
  · exact FS.read_remove_self _ _

/-- Witness for C4: a concrete PDF at `d/x.pdf` processed into the
output directory `out`, with `overwrite` also set (and ignored). -/
theorem C4_output_resolution_witness :
    process_file false "d/x.pdf" "W" (some "out") true fs4 =
      .ok (true, fs4.write (pyJoin "out" (basename "d/x.pdf"))
            (watermarkContent false "W" (.pdf [page612]))) :=
  (C4_output_resolution false "d/x.pdf" "W" fs4 (.pdf [page612]) .pdf
    rfl rfl rfl).1 "out" true

/-- C5: the walk prunes every subdirectory whose name starts with `.`
(filtering them away changes nothing), skips every file starting with
`~$` or `.`, silently drops every file whose lower-cased extension is
not `.pdf`/`.docx`/`.xlsx`, counts every processed file as exactly one
success or one failure (`successCount + failedCount` equals the number
of files handed to the processor), and on the concrete tree
`root/{a.pdf, b.docx, c.txt, .hidden.xlsx}` with both documents valid
returns `{successCount: 2, failedCount: 0}` while only `root/a.pdf` and
`root/b.docx` are ever handed to the processor. -/
theorem C5_walk_filtering :
    (∀ (root : String) (files : List String) (subdirs : List (String × DirTree)),
        walkAll root (.mk files (subdirs.filter (fun d => !startsWith d.1 "."))) =
          walkAll root (.mk files subdirs)) ∧
    (∀ (root f : String) (rest : List (String × String)),
        (startsWith f "~$" || startsWith f ".") = true →
        processedNames ((root, f) :: rest) = processedNames rest) ∧
    (∀ (root f : String) (rest : List (String × String)),
        strLower (splitext f).2 ≠ ".pdf" → strLower (splitext f).2 ≠ ".docx" →
        strLower (splitext f).2 ≠ ".xlsx" →
        processedNames ((root, f) :: rest) = processedNames rest) ∧
    (∀ (fr : Bool) (text : String) (od : Option String) (ow : Bool) (dp : String)
        (entries : List (String × String)) (fs : FS) (res : Nat × Nat) (fs' : FS),
        processEntries fr text od ow dp entries fs (0, 0) = .ok (res, fs') →
        res.1 + res.2 = (processedNames entries).length) ∧
    (∃ fs', process_directory false "root" "W" none false tree0 fs0 =
        .ok ((2, 0), fs')) ∧
    processedNames (walkAll "root" tree0) = ["root/a.pdf", "root/b.docx"] := by
  refine ⟨?_, ?_, ?_, ?_, ⟨_, rfl⟩, rfl⟩
  · intro root files subdirs
    simp [walkAll, walkSubdirs_filter]
  · intro root f rest h
    have hs : skipEntry f = true := by
      rcases Bool.or_eq_true_iff.1 h with h1 | h1 <;> simp [skipEntry, h1]
    simp [processedNames, hs]
  · intro root f rest h1 h2 h3
    have hs : skipEntry f = true := by simp [skipEntry, h1, h2, h3]
    simp [processedNames, hs]
  · intro fr text od ow dp entries fs res fs' h
    simpa using processEntries_count fr text od ow dp entries fs (0, 0) res fs' h

/-- Witness for C5: the hidden `.hidden.xlsx` and the unsupported
`c.txt` are skipped, and the concrete tally of `2` successes and `0`
failures matches the number of processed files. -/
theorem C5_walk_filtering_witness :
    processedNames [("root", ".hidden.xlsx")] = processedNames [] ∧
    processedNames [("root", "c.txt")] = processedNames [] ∧
    (2 : Nat) + 0 = (processedNames (walkAll "root" tree0)).length := by
  refine ⟨C5_walk_filtering.2.1 "root" ".hidden.xlsx" [] (by decide),
    C5_walk_filtering.2.2.1 "root" "c.txt" [] (by decide) (by decide) (by decide), ?_⟩
  obtain ⟨fs', h5⟩ := C5_walk_filtering.2.2.2.2.1
  exact C5_walk_filtering.2.2.2.1 false "W" none false "root"
    (walkAll "root" tree0) fs0 (2, 0) fs' h5

/-- C6: the exit status of `main`.  No resolvable target → `1`; target
path missing → `1`; a file target exits `1` exactly when `process_file`
returns `False` (else `0`); a directory target that completes its walk
exits `0` regardless of the per-file tally, even if every file
failed. -/
theorem C6_exit_codes (fr : Bool) (args : Args) (w : World) :
    (resolveTarget args = none → main fr args w = .ok 1) ∧
    (∀ target, resolveTarget args = some target → pathExists w target = false →
        main fr args w = .ok 1) ∧
    (∀ target c b fs', resolveTarget args = some target →
        w.fs.read target = some c →
        process_file fr target args.text args.output args.overwrite w.fs =
          .ok (b, fs') →
        main fr args w = .ok (if b then 0 else 1)) ∧
    (∀ target t res fs', resolveTarget args = some target →
        w.fs.read target = none → lookupDir w.dirs target = some t →
        process_directory fr target args.text args.output args.overwrite t w.fs =
          .ok (res, fs') →
        main fr args w = .ok 0) := by
  refine ⟨?_, ?_, ?_, ?_⟩
  · intro h
    simp [main, h]
  · intro target h hex
    simp [main, h, hex]
  · intro target c b fs' h hread hpf
    have hex : pathExists w target = true := by simp [pathExists, hread]
    cases b <;> simp [main, h, hex, hread, hpf]
  · intro target t res fs' h hread hdir hpd
    have hex : pathExists w target = true := by simp [pathExists, hdir]
    simp [main, h, hex, hread, hdir, hpd]

/-- Witness for C6: directory mode over a tree whose single file fails
(`root/bad.pdf` holds non-PDF bytes), tally `{0 successes, 1 failure}`,
exit status `0`. -/
theorem C6_exit_codes_witness : main false args6 w6 = .ok 0 :=
  (C6_exit_codes false args6 w6).2.2.2 "root" tree6 (0, 1) w6.fs rfl rfl rfl rfl

/-- C7: the Word handler is not idempotent.  For every document with at
least one section (every real `.docx` has one) and non-empty watermark
text, applying the handler's document transformation twice differs from
applying it once, and after the double application every section's first
header paragraph ends in two appended watermark runs. -/
theorem C7_not_idempotent (d : DocxDoc) (text : String)
    (hs : d.sections ≠ []) (ht : text ≠ "") :
    docxAddWatermark text (docxAddWatermark text d) ≠ docxAddWatermark text d ∧
    ∀ s ∈ (docxAddWatermark text (docxAddWatermark text d)).sections,
      ∃ p rest r, s.headerParagraphs = p :: rest ∧
        p.runs = r ++ [wmRun text, wmRun text] := by
  constructor
  · intro h
    have hcong := congrArg DocxDoc.sections h
    simp only [docxAddWatermark] at hcong
    cases hd : d.sections with
    | nil => exact hs hd
    | cons s₀ ss =>
      rw [hd] at hcong
      simp only [List.map_cons, List.cons.injEq] at hcong
      have h1 := congrArg firstHeaderRuns hcong.1
      simp only [firstHeaderRuns_docxSectionAdd] at h1
      omega
  · intro s hsin
    simp only [docxAddWatermark, List.map_map, List.mem_map] at hsin
    obtain ⟨s₀, hs₀, rfl⟩ := hsin
    obtain ⟨ps⟩ := s₀
    cases ps with
    | nil =>
      refine ⟨{ runs := [wmRun text, wmRun text], alignment := some 1 },
        [], [], ?_, ?_⟩ <;> simp [docxSectionAdd, Function.comp]
    | cons p₀ rest₀ =>
      refine ⟨{ runs := (p₀.runs ++ [wmRun text]) ++ [wmRun text]
                alignment := some 1 },
          rest₀, p₀.runs, ?_, ?_⟩ <;>
        simp [docxSectionAdd, Function.comp]

/-- Witness for C7: the concrete one-section document watermarked twice
differs from it watermarked once. -/
theorem C7_not_idempotent_witness :
    docxAddWatermark "W" (docxAddWatermark "W" doc1) ≠ docxAddWatermark "W" doc1 :=
  (C7_not_idempotent doc1 "W" (by simp [doc1]) (by decide)).1

/-- C8: the PDF handler builds, for every page of a valid input, a
single-page overlay of the page's exact dimensions with the watermark
text drawn exactly three times — centred, at 25% width / 75% height and
at 75% width / 25% height, each rotated 45 degrees about its anchor,
filled RGB (0.7, 0.7, 0.7) at 30% opacity in font size 30 (the
`specOverlay` written from the spec's words) — merges it on top of the
original page content and writes all merged pages to the output
path. -/
theorem C8_pdf_overlay (fr : Bool) (text input output : String)
    (pages : List PdfPage) (fs : FS)
    (hread : fs.read input = some (.pdf pages)) :
    add_watermark_pdf fr input output text fs =
      (true, fs.write output (.pdf (pages.map (fun p =>
        { p with content := p.content ++
            (specOverlay (if fr then "ChineseFont" else "Helvetica")
              text p.width p.height).content })))) := by
  have hm : mergePage fr text = fun p : PdfPage =>
      { p with content := p.content ++
          (specOverlay (if fr then "ChineseFont" else "Helvetica")
            text p.width p.height).content } := by
    funext p
    exact mergePage_eq_spec fr text p
  simp [add_watermark_pdf, hread, hm]

/-- Witness for C8: the one-page fixture processed concretely. -/
theorem C8_pdf_overlay_witness :
    add_watermark_pdf false "in.pdf" "out.pdf" "W" fs8 =
      (true, fs8.write "out.pdf" (.pdf ([page612].map (fun p =>
        { p with content := p.content ++
            (specOverlay "Helvetica" "W" p.width p.height).content })))) :=
  C8_pdf_overlay false "W" "in.pdf" "out.pdf" [page612] fs8 rfl

/-- C9: the Word handler mutates only the per-section headers and does
so exactly as the spec words it (`specDocxAdd`: per section, obtain or
create the first header paragraph, append a centred 36-point
light-gray RGB(200,200,200) run); the document body is unchanged. -/
theorem C9_headers_only (text : String) (d : DocxDoc) :
    (docxAddWatermark text d).body = d.body ∧
    docxAddWatermark text d = specDocxAdd text d := by
  refine ⟨rfl, ?_⟩
  simp only [docxAddWatermark, specDocxAdd, DocxDoc.mk.injEq, and_true]
  induction d.sections with
  | nil => rfl
  | cons s ss ih =>
    simp only [List.map_cons, List.cons.injEq]
    refine ⟨?_, ih⟩
    cases h : s.headerParagraphs <;> simp [docxSectionAdd, wmRun, h]

/-- C10: handler dispatch is decided by the extension of the original
path, captured before the rename to `<path>.tmp`, so in overwrite mode
the same handler runs as in non-overwrite mode even though its input
ends in `.tmp`: both modes deposit the same watermarked content, at the
original path respectively at the `_watermarked` sibling. -/
theorem C10_dispatch_before_rename (fr : Bool) (path text : String) (fs : FS)
    (c : Content) (fmt : Format)
    (hext : extFormat path = some fmt) (hc : contentFormat c = some fmt)
    (hread : fs.read path = some c) :
    ∃ fs₁ fs₂,
      process_file fr path text none true fs = .ok (true, fs₁) ∧
      process_file fr path text none false fs = .ok (true, fs₂) ∧
      fs₁.read path = some (watermarkContent fr text c) ∧
      fs₂.read ((splitext path).1 ++ "_watermarked" ++ (splitext path).2) =
        some (watermarkContent fr text c) := by
  refine ⟨_, _, process_file_overwrite fr path text fs c fmt hext hc hread,
    process_file_sibling fr path text fs c fmt hext hc hread, ?_,
    FS.read_write_self _ _ _⟩
  rw [FS.read_remove_ne _ (Ne.symm (ne_append_tmp path)), FS.read_write_self]

/-- Witness for C10: the concrete PDF fixture in both modes. -/
theorem C10_dispatch_before_rename_witness :
    ∃ fs₁ fs₂,
      process_file false "d/x.pdf" "W" none true fs4 = .ok (true, fs₁) ∧
      process_file false "d/x.pdf" "W" none false fs4 = .ok (true, fs₂) ∧
      fs₁.read "d/x.pdf" = some (watermarkContent false "W" (.pdf [page612])) ∧
      fs₂.read ((splitext "d/x.pdf").1 ++ "_watermarked" ++
          (splitext "d/x.pdf").2) =
        some (watermarkContent false "W" (.pdf [page612])) :=
  C10_dispatch_before_rename false "d/x.pdf" "W" fs4 (.pdf [page612]) .pdf
    rfl rfl rfl

end Watermark
